import Mathlib

/-!
# Verification of the Map2D grid path-planning code (`MapLib.py`)

Shallow embedding of the planner in `MapLib.py`: the `Map2D` object, its
connection matrix (a numpy array of shape `(2*sizeX+1, 2*sizeY+1)`), the
wavefront cost propagation (`propagateWavefront`, `incrementWavefront`,
`fillCostMatrix`) and the path extraction (`findPath`).

Modelling conventions:
* numpy 2-D indexing `a[i, j]` with Python `int` indices is modelled by
  `npGet`/`npSet`: a negative index `i` with `-len ≤ i` wraps to `len + i`
  (Python negative indexing); any other out-of-range index raises
  `IndexError`, modelled by `PyErr.indexError`.
* Python exceptions are modelled with `Except PyErr`; `PyErr.typeError`
  models the `TypeError` raised by subscripting/using `None`.
* The unbounded `while` loop in `fillCostMatrix` and the recursion of
  `findPath` are given an explicit fuel argument; running out of fuel is
  `PyErr.noFuel` and corresponds to the Python program still running.
* Grid entries are integers as in the source: `-2` unvisited, `-1` blocked,
  `n ≥ 0` a hop distance.
-/

inductive PyErr where
  | indexError
  | typeError
  | noFuel
deriving DecidableEq, Repr

abbrev Grid := List (List Int)

/-- Normalize a Python index for a container of length `n`:
in-range indices stay, negative ones with `-n ≤ i` wrap to `n + i`,
anything else is out of range. -/
def normIdx (n : Nat) (i : Int) : Option Nat :=
  if 0 ≤ i ∧ i < (n : Int) then some i.toNat
  else if -(n : Int) ≤ i ∧ i < 0 then some (i + n).toNat
  else none

/-- numpy read `g[i, j]` with Python indexing semantics. -/
def npGet (g : Grid) (i j : Int) : Except PyErr Int :=
  match normIdx g.length i with
  | none => .error .indexError
  | some k =>
    match g[k]? with
    | none => .error .indexError
    | some row =>
      match normIdx row.length j with
      | none => .error .indexError
      | some l =>
        match row[l]? with
        | none => .error .indexError
        | some v => .ok v

/-- numpy write `g[i, j] = v` with Python indexing semantics. -/
def npSet (g : Grid) (i j : Int) (v : Int) : Except PyErr Grid :=
  match normIdx g.length i with
  | none => .error .indexError
  | some k =>
    match g[k]? with
    | none => .error .indexError
    | some row =>
      match normIdx row.length j with
      | none => .error .indexError
      | some l =>
        if l < row.length then .ok (g.set k (row.set l v))
        else .error .indexError

/-- The `Map2D` object state (the fields the planner uses).
`costMatrix` and `currentPath` start as `None` in `__init__`. -/
structure Map2D where
  sizeX : Nat
  sizeY : Nat
  sizeCell : Nat
  connectionMatrix : Grid
  costMatrix : Option Grid
  currentPath : Option (List Int)
  sizeXExtended : Nat
  sizeYExtended : Nat
deriving DecidableEq, Repr

/-- The `self.neighbor` offset table from `__init__`:
row index offsets `[1, 1, 0, -1, -1, -1, 0, 1]` and
column index offsets `[0, 1, 1, 1, 0, -1, -1, -1]`, as pairs. -/
def neighborOff : Fin 8 → Int × Int := fun i =>
  ([(1, 0), (1, 1), (0, 1), (-1, 1), (-1, 0), (-1, -1), (0, -1), (1, -1)] :
    List (Int × Int)).getD i.val (0, 0)

/-- `_cell2connCoord`: the connection-matrix coordinates of the connection
from cell `(cellX, cellY)` to its neighbour number `numNeigh`
(the dictionary of eight lambdas in the source). -/
def cell2connCoord (cellX cellY : Int) (numNeigh : Fin 8) : Int × Int :=
  let connX := 2 * cellX + 1
  let connY := 2 * cellY + 1
  let off := ([(0, 1), (1, 1), (1, 0), (1, -1), (0, -1), (-1, -1), (-1, 0), (-1, 1)] :
    List (Int × Int)).getD numNeigh.val (0, 0)
  (connX + off.1, connY + off.2)

/-- `isConnected`: read the connection-matrix entry for (cell, direction). -/
def isConnected (m : Map2D) (cellX cellY : Int) (numNeigh : Fin 8) : Except PyErr Int :=
  let c := cell2connCoord cellX cellY numNeigh
  npGet m.connectionMatrix c.1 c.2

/-- `setConnection`: write `1` at the connection-matrix entry. -/
def setConnection (m : Map2D) (cellX cellY : Int) (numNeigh : Fin 8) : Except PyErr Map2D :=
  let c := cell2connCoord cellX cellY numNeigh
  (npSet m.connectionMatrix c.1 c.2 1).map fun g => { m with connectionMatrix := g }

/-- `deleteConnection`: write `0` at the connection-matrix entry. -/
def deleteConnection (m : Map2D) (cellX cellY : Int) (numNeigh : Fin 8) : Except PyErr Map2D :=
  let c := cell2connCoord cellX cellY numNeigh
  (npSet m.connectionMatrix c.1 c.2 0).map fun g => { m with connectionMatrix := g }

/-- One iteration `i` of the `for i in range(0, 8)` loop of
`propagateWavefront`: relax neighbour `i` of `origin` in `grid`.
The accumulator is `(grid, numberUpdates)`. -/
def propagateStep (m : Map2D) (origin : Int × Int) (acc : Grid × Nat) (i : Fin 8) :
    Except PyErr (Grid × Nat) := do
  let x := origin.1 + (neighborOff i).1
  let y := origin.2 + (neighborOff i).2
  if 0 ≤ x ∧ x < 2 * (m.sizeX : Int) + 1 ∧ 0 ≤ y ∧ y < 2 * (m.sizeY : Int) + 1 then
    let v ← npGet acc.1 x y
    if v = -2 then do
      let ov ← npGet acc.1 origin.1 origin.2
      let g ← npSet acc.1 x y (ov + 1)
      pure (g, acc.2 + 1)
    else do
      let ov ← npGet acc.1 origin.1 origin.2
      if v > ov + 1 ∧ v ≠ -1 then do
        let g ← npSet acc.1 x y (ov + 1)
        pure (g, acc.2 + 1)
      else
        pure acc
  else
    pure acc

/-- `propagateWavefront(grid, origin)`: relax the eight grid-neighbours of
`origin`, returning the mutated grid and `numberUpdates`.
(The local `cellsUpdated` list in the source is dead code and is omitted.) -/
def propagateWavefront (m : Map2D) (grid : Grid) (origin : Int × Int) :
    Except PyErr (Grid × Nat) :=
  (List.finRange 8).foldlM (propagateStep m origin) (grid, 0)

/-- `incrementWavefront(cells_updated, grid)`: collect the in-bounds,
non-blocked neighbours of the given cells whose value equals the cell's
value plus one. -/
def incrementWavefront (m : Map2D) (cells : List (Int × Int)) (grid : Grid) :
    Except PyErr (List (Int × Int)) :=
  cells.foldlM (fun acc cell =>
    (List.finRange 8).foldlM (fun acc2 i => do
      let x := cell.1 + (neighborOff i).1
      let y := cell.2 + (neighborOff i).2
      if 0 ≤ x ∧ x < 2 * (m.sizeX : Int) + 1 ∧ 0 ≤ y ∧ y < 2 * (m.sizeY : Int) + 1 then
        let v ← npGet grid x y
        if v ≠ -1 then do
          let cv ← npGet grid cell.1 cell.2
          if v = cv + 1 then pure (acc2 ++ [(x, y)]) else pure acc2
        else
          pure acc2
      else
        pure acc2) acc) []

/-- The `while not finished` loop of `fillCostMatrix`, with fuel.
Each round propagates from every wavefront cell (summing the update
counts), computes the next wavefront, and stops when a round made
zero updates. -/
def costLoop (m : Map2D) (fuel : Nat) (grid : Grid) (wavefront : List (Int × Int)) :
    Except PyErr Grid :=
  match fuel with
  | 0 => .error .noFuel
  | f + 1 => do
    let s ← wavefront.foldlM (fun (acc : Grid × Nat) cell => do
        let r ← propagateWavefront m acc.1 cell
        pure (r.1, acc.2 + r.2)) (grid, 0)
    let wf ← incrementWavefront m wavefront s.1
    if s.2 = 0 then pure s.1
    else costLoop m f s.1 wf

/-- The local `grid` computed by `fillCostMatrix(goalCell)` at loop exit:
initialize every position to `-2`, mark positions whose connection-matrix
entry is `0` as `-1`, set the goal centre `(2*gx+1, 2*gy+1)` to `0`, and
run the wavefront loop.  (In the source this grid is a local variable.) -/
def fillCostMatrixGrid (m : Map2D) (goalCellX goalCellY : Int) (fuel : Nat) :
    Except PyErr Grid := do
  let sxe := 2 * m.sizeX + 1
  let sye := 2 * m.sizeY + 1
  let goalX := 2 * goalCellX + 1
  let goalY := 2 * goalCellY + 1
  let init : Grid := List.replicate sxe (List.replicate sye (-2))
  let g ← (List.range sxe).foldlM (fun g i =>
    (List.range sye).foldlM (fun g j => do
      let c ← npGet m.connectionMatrix (i : Int) (j : Int)
      if c = 0 then npSet g (i : Int) (j : Int) (-1) else pure g) g) init
  let g ← npSet g goalX goalY 0
  costLoop m fuel g [(goalX, goalY)]

/-- The `fillCostMatrix` method as seen by the caller: it sets
`sizeXExtended`/`sizeYExtended`, computes the local `grid`, prints the
final wavefront and returns `None` — the computed grid is discarded and
`self.costMatrix` is left untouched. -/
def fillCostMatrix (m : Map2D) (goalCellX goalCellY : Int) (fuel : Nat) :
    Except PyErr Map2D := do
  let _ ← fillCostMatrixGrid m goalCellX goalCellY fuel
  pure { m with sizeXExtended := 2 * m.sizeX + 1, sizeYExtended := 2 * m.sizeY + 1 }

/-- The two neighbour scans inside `findPath`: first the four orthogonal
offsets `[0,1],[0,-1],[1,0],[-1,0]`, then the four diagonal offsets
`[1,-1],[1,1],[-1,1],[-1,-1]` (a diagonal is considered only when the two
adjoining entries are not `-1`, with Python short-circuit evaluation).
The accumulator is `(best_step, low_path)` with `best_step` initially
`None` and `low_path` initially `10000000`. -/
def scanNeighbors (cm : Grid) (xi yi : Int) :
    Except PyErr (Option (Int × Int) × Int) := do
  let acc1 ← ([((0 : Int), (1 : Int)), (0, -1), (1, 0), (-1, 0)]).foldlM
    (fun (acc : Option (Int × Int) × Int) d => do
      let c ← npGet cm (xi + d.1) (yi + d.2)
      if acc.2 > c then pure (some (xi + d.1, yi + d.2), c) else pure acc)
    ((none : Option (Int × Int)), (10000000 : Int))
  ([((1 : Int), (-1 : Int)), (1, 1), (-1, 1), (-1, -1)]).foldlM
    (fun (acc : Option (Int × Int) × Int) d => do
      let a ← npGet cm (xi + d.1) yi
      if a ≠ -1 then do
        let b ← npGet cm xi (yi + d.2)
        if b ≠ -1 then do
          let c ← npGet cm (xi + d.1) (yi + d.2)
          if acc.2 > c then pure (some (xi + d.1, yi + d.2), c) else pure acc
        else
          pure acc
      else
        pure acc) acc1

/-- `findPath(x_ini, y_ini, x_end, y_end)` over a given cost matrix `cm`
(`self.costMatrix`), threading `self.currentPath` explicitly and with an
explicit fuel for the recursion.  Mirrors the source exactly: all four
arguments are doubled (`2*v+1`) on entry, the (doubled) start is appended
to `currentPath`, `-1` at the start returns `False`, reaching the end
returns `True`, and otherwise the lowest-valued neighbour from
`scanNeighbors` is recursed on, passing the *already doubled* end
coordinates, which are doubled again in the recursive call. -/
def findPath (cm : Grid) : Nat → Int → Int → Int → Int → Option (List Int) →
    Except PyErr Bool × Option (List Int)
  | 0, _, _, _, _, path => (.error .noFuel, path)
  | f + 1, xI, yI, xE, yE, path =>
    let xi := 2 * xI + 1
    let yi := 2 * yI + 1
    let xe := 2 * xE + 1
    let ye := 2 * yE + 1
    let path' : Option (List Int) :=
      match path with
      | none => some [xi, yi]
      | some p => some (p ++ [xi, yi])
    match npGet cm xi yi with
    | .error e => (.error e, path')
    | .ok v =>
      if v = -1 then (.ok false, path')
      else if xi = xe ∧ yi = ye then (.ok true, path')
      else
        match scanNeighbors cm xi yi with
        | .error e => (.error e, path')
        | .ok (none, _) => (.error .typeError, path')
        | .ok (some b, _) => findPath cm f b.1 b.2 xe ye path'

/-- The documented 3×3 map `mapa0.txt` ("3 3 400", all interior
connections open, boundary closed): the loader produces the 7×7
connection matrix whose entry `[x][y]` is `1` iff `1 ≤ x ≤ 5` and
`1 ≤ y ≤ 5`. -/
def map3Conn : Grid :=
  [[0, 0, 0, 0, 0, 0, 0],
   [0, 1, 1, 1, 1, 1, 0],
   [0, 1, 1, 1, 1, 1, 0],
   [0, 1, 1, 1, 1, 1, 0],
   [0, 1, 1, 1, 1, 1, 0],
   [0, 1, 1, 1, 1, 1, 0],
   [0, 0, 0, 0, 0, 0, 0]]

/-- The freshly loaded documented 3×3 map (`costMatrix` and `currentPath`
are `None` after `__init__` and `_loadMap`). -/
def map3 : Map2D :=
  { sizeX := 3, sizeY := 3, sizeCell := 400
    connectionMatrix := map3Conn
    costMatrix := none, currentPath := none
    sizeXExtended := 0, sizeYExtended := 0 }

/-- The cost grid computed (and then discarded) by `fillCostMatrix` on the
documented 3×3 map with goal cell `(1, 1)`. -/
def cm3 : Grid := ((fillCostMatrixGrid map3 1 1 40).toOption).getD []

/-- A 7×7 cost matrix whose every entry is `5`: every position is a local
minimum that is not the goal (the inconsistent-field situation). -/
def cmFlat : Grid := List.replicate 7 (List.replicate 7 5)

/-- A 3×3 cost matrix on which `findPath(0, 0, xe, ye)` loops forever:
the diagonal `(0, 0)` entry is the unique minimum seen from position
`(1, 1)`, and the recursive call `findPath(0, 0, …)` doubles back to
position `(1, 1)` again. -/
def cmCycle : Grid := [[-5, 100, 100], [100, 5, 100], [100, 100, 100]]

/- ### Helper lemmas about the numpy indexing model -/

theorem normIdx_lt {n : Nat} {i : Int} {k : Nat} (h : normIdx n i = some k) : k < n := by
  unfold normIdx at h
  split at h
  · next h0 => injection h with h; omega
  · split at h
    · next h1 => injection h with h; omega
    · exact Option.noConfusion h

theorem normIdx_pos {n : Nat} {i : Int} (h0 : 0 ≤ i) (h1 : i < (n : Int)) :
    normIdx n i = some i.toNat := by
  unfold normIdx; rw [if_pos ⟨h0, h1⟩]

/-- An index at or past the container length raises `IndexError`
(no negative-wrap applies). -/
theorem npGet_high {g : Grid} {i : Int} (j : Int) (h : (g.length : Int) ≤ i) :
    npGet g i j = .error .indexError := by
  have hn : normIdx g.length i = none := by
    unfold normIdx
    have h1 : ¬(0 ≤ i ∧ i < (g.length : Int)) := by omega
    have h2 : ¬(-(g.length : Int) ≤ i ∧ i < 0) := by omega
    rw [if_neg h1, if_neg h2]
  unfold npGet
  rw [hn]

theorem npGet_ok_inv {g : Grid} {i j v : Int} (h : npGet g i j = .ok v) :
    ∃ k row l, normIdx g.length i = some k ∧ g[k]? = some row ∧
      normIdx row.length j = some l ∧ row[l]? = some v := by
  unfold npGet at h
  split at h
  · exact Except.noConfusion h
  · next k hk =>
    split at h
    · exact Except.noConfusion h
    · next row hrow =>
      split at h
      · exact Except.noConfusion h
      · next l hl =>
        split at h
        · exact Except.noConfusion h
        · next w hw =>
          injection h with h
          subst h
          exact ⟨k, row, l, hk, hrow, hl, hw⟩

theorem npSet_ok {g : Grid} {i j v : Int} {k l : Nat} {row : List Int}
    (hk : normIdx g.length i = some k) (hr : g[k]? = some row)
    (hl : normIdx row.length j = some l) :
    npSet g i j v = .ok (g.set k (row.set l v)) := by
  have hlt : l < row.length := normIdx_lt hl
  simp only [npSet, hk, hr, hl, hlt, if_true]

/-- Writing at a readable position succeeds, and reading the same position
back yields the written value. -/
theorem npSet_get_same {g : Grid} {i j v : Int} (w : Int)
    (h : npGet g i j = .ok v) :
    ∃ g', npSet g i j w = .ok g' ∧ npGet g' i j = .ok w := by
  obtain ⟨k, row, l, hk, hr, hl, _⟩ := npGet_ok_inv h
  have hklt : k < g.length := normIdx_lt hk
  have hllt : l < row.length := normIdx_lt hl
  refine ⟨g.set k (row.set l w), npSet_ok hk hr hl, ?_⟩
  have h1 : normIdx (g.set k (row.set l w)).length i = some k := by
    rw [List.length_set]; exact hk
  have h2 : (g.set k (row.set l w))[k]? = some (row.set l w) :=
    List.getElem?_set_eq_of_lt _ hklt
  have h3 : normIdx (row.set l w).length j = some l := by
    rw [List.length_set]; exact hl
  have h4 : (row.set l w)[l]? = some w := List.getElem?_set_eq_of_lt _ hllt
  simp only [npGet, h1, h2, h3, h4]

/- ### C1: `fillCostMatrix` never delivers a cost field to the caller -/

/-- C1.  Claimed: for every map and in-range goal, `computeCostField`
(`fillCostMatrix`) produces a completed CostField as its output available
to the caller.  In the source the wavefront grid is a local variable: the
method returns `None` and `self.costMatrix` is left exactly as it was
(still `None` on a freshly loaded map), so no cost field reaches the
caller or the path extractor. -/
theorem fillCostMatrix_leaves_costMatrix_unchanged
    (m : Map2D) (gx gy : Int) (fuel : Nat) (m' : Map2D)
    (h : fillCostMatrix m gx gy fuel = .ok m') : m'.costMatrix = m.costMatrix := by
  unfold fillCostMatrix at h
  cases hg : fillCostMatrixGrid m gx gy fuel with
  | error e =>
    rw [hg] at h
    simp only [Bind.bind, Except.bind] at h
    exact Except.noConfusion h
  | ok g =>
    rw [hg] at h
    simp only [Bind.bind, Except.bind, pure, Except.pure] at h
    injection h with h
    rw [← h]

/-- Witness for C1: on the documented 3×3 map with goal `(1,1)` the call
succeeds and the resulting object still has `costMatrix = None`. -/
theorem fillCostMatrix_leaves_costMatrix_unchanged_witness :
    fillCostMatrix map3 1 1 40 =
      .ok { map3 with sizeXExtended := 7, sizeYExtended := 7 } ∧
    ({ map3 with sizeXExtended := 7, sizeYExtended := 7 } : Map2D).costMatrix = none := by
  refine ⟨rfl, ?_⟩
  exact (fillCostMatrix_leaves_costMatrix_unchanged map3 1 1 40 _ rfl).trans rfl

/- ### C7: the documented 3×3 example values -/

/-- C7.  For the documented 3×3 all-interior-open map with goal cell
`(1,1)`, the computed wavefront grid has cost `2` at the centre of cell
`(0,0)` (position `(1,1)`), cost `2` at the centre of cell `(2,2)`
(position `(5,5)`), and cost `0` at the goal centre (position `(3,3)`). -/
theorem fillCostMatrixGrid_map3_values :
    fillCostMatrixGrid map3 1 1 40 = .ok cm3 ∧
    npGet cm3 1 1 = .ok 2 ∧ npGet cm3 5 5 = .ok 2 ∧ npGet cm3 3 3 = .ok 0 :=
  ⟨rfl, rfl, rfl, rfl⟩

/- ### C2, C4, C5: behaviour of `findPath` -/

/-- C2.  Claimed: with a cost field computed for goal `end`, `findPath`
returns a shortest path whose length is the field value at the start.
Actual run on the documented 3×3 map with the correctly computed field
`cm3` for goal `(1,1)`, start `(0,0)`: the recursion re-doubles its
coordinates each call and walks through the blocked boundary position,
ending in an `IndexError` at position `(7,1)` (outside the 7×7 grid)
after recording `[1,1,3,1,7,1]`. -/
theorem findPath_map3_indexError :
    findPath cm3 10 0 0 1 1 none = (.error .indexError, some [1, 1, 3, 1, 7, 1]) := rfl

/-- C4.  Claimed: at a non-goal local minimum `findPath` fails with
`InconsistentFieldError`.  Actual run on a uniform cost field (every
position `5`, so no neighbour is ever strictly lower): the code selects
an equal-valued neighbour anyway, recurses with re-doubled coordinates,
and dies with `IndexError` — there is no inconsistency detection at
all in the source. -/
theorem findPath_flatField_indexError :
    findPath cmFlat 10 0 0 1 1 none = (.error .indexError, some [1, 1, 3, 5, 7, 13]) := rfl

/-- C5.  Claimed: consecutive entries of the returned path are adjacent
via an open connection with non-increasing cost.  Actual path recorded on
the documented 3×3 map with the correct field `cm3`: `[1,1,3,1,7,1]`,
i.e. positions `(1,1)`, `(3,1)`, `(7,1)` — consecutive entries two grid
steps apart (not adjacent) and the last one outside the grid. -/
theorem findPath_map3_path_not_adjacent :
    (findPath cm3 10 0 0 1 1 none).2 = some [1, 1, 3, 1, 7, 1] ∧
    ¬((3 : Int) - 1 ≤ 1 ∧ (1 : Int) - 1 ≤ 1) := ⟨rfl, by norm_num⟩

/- ### C6: blocked vs unvisited start -/

/-- Counterexample to C6: a start position whose cost-field entry is
`Unvisited` (`-2`) is claimed to fail like `Blocked`; but with start =
end = cell `(0,0)` and field entry `-2` at its centre, `findPath`
returns `True` (success), not the `UnreachableError` return. -/
theorem findPath_unvisited_start_succeeds :
    (findPath [[0, 0], [0, -2]] 1 0 0 0 0 none).1 = .ok true := rfl

/-- C6 (amended).  Only `Blocked` (`-1`) at the start centre position is
detected: in that case `findPath` immediately returns `False` (the
unreachable signal), for every map, end cell and fuel. -/
theorem findPath_blocked_start_returns_false
    (cm : Grid) (f : Nat) (xI yI xE yE : Int) (p : Option (List Int))
    (h : npGet cm (2 * xI + 1) (2 * yI + 1) = .ok (-1)) :
    (findPath cm (f + 1) xI yI xE yE p).1 = .ok false := by
  simp only [findPath, h, if_true]

/-- Witness for the amended C6 at a concrete blocked start. -/
theorem findPath_blocked_start_returns_false_witness :
    npGet [[0, 0], [0, -1]] 1 1 = .ok (-1) ∧
    (findPath [[0, 0], [0, -1]] 1 0 0 0 0 none).1 = .ok false :=
  ⟨rfl, findPath_blocked_start_returns_false [[0, 0], [0, -1]] 0 0 0 0 0 none rfl⟩

/- ### C8: set/delete round trip -/

/-- Counterexample to C8: on the documented 3×3 map the connection from
cell `(0,0)` in direction `0` is initially open (`1`); after
`setConnection` then `deleteConnection` it reads closed (`0`), so the
round trip does *not* restore the original value of an open connection. -/
theorem setConnection_deleteConnection_not_roundtrip :
    isConnected map3 0 0 0 = .ok 1 ∧
    (setConnection map3 0 0 0 >>= fun m1 => deleteConnection m1 0 0 0 >>= fun m2 =>
      isConnected m2 0 0 0) = .ok 0 := ⟨rfl, rfl⟩

/-- C8 (amended).  `setConnection` writes `1` and `deleteConnection`
writes `0` unconditionally, so for every readable (cell, direction) the
round trip always ends with the connection closed: the original value is
restored exactly when the connection was initially closed, and an
initially open connection is lost. -/
theorem set_delete_leaves_closed (m : Map2D) (cX cY : Int) (d : Fin 8) (v : Int)
    (h : isConnected m cX cY d = .ok v) :
    (setConnection m cX cY d >>= fun m1 => deleteConnection m1 cX cY d >>= fun m2 =>
      isConnected m2 cX cY d) = .ok 0 := by
  simp only [isConnected] at h
  obtain ⟨g1, hs1, hg1⟩ := npSet_get_same 1 h
  obtain ⟨g2, hs2, hg2⟩ := npSet_get_same 0 hg1
  simp only [setConnection, deleteConnection, isConnected, hs1, hs2, Except.map,
    Bind.bind, Except.bind]
  exact hg2

/-- Witness for the amended C8 at an initially closed connection of the
documented 3×3 map (cell `(0,0)`, direction `4`): the round trip indeed
restores (keeps) the closed state. -/
theorem set_delete_leaves_closed_witness :
    isConnected map3 0 0 4 = .ok 0 ∧
    (setConnection map3 0 0 4 >>= fun m1 => deleteConnection m1 0 0 4 >>= fun m2 =>
      isConnected m2 0 0 4) = .ok 0 :=
  ⟨rfl, set_delete_leaves_closed map3 0 0 4 0 rfl⟩

/- ### C9: out-of-range cells -/

/-- Counterexample to C9: cell `(-1, 0)` is outside `[0,sizeX)×[0,sizeY)`,
yet `isConnected` raises nothing — Python negative indexing silently
wraps to the opposite edge of the connection matrix and reads `0`. -/
theorem isConnected_neg_cell_silent_read : isConnected map3 (-1) 0 0 = .ok 0 := rfl

/-- C9 (amended).  For cells at or beyond the upper bound the derived
connection-matrix index is past the end of the array, so `isConnected`
(here for direction `0`, whose x-offset is `0`) raises `IndexError`, and
`fillCostMatrix` raises `IndexError` for a goal cell at the upper bound
(concretely, goal `(3, 0)` on the documented 3×3 map); only negative
cells wrap silently instead of failing. -/
theorem isConnected_fillCostMatrix_high_bounds :
    (∀ (m : Map2D) (cX cY : Int),
      m.connectionMatrix.length = 2 * m.sizeX + 1 → (m.sizeX : Int) ≤ cX →
      isConnected m cX cY 0 = .error .indexError) ∧
    fillCostMatrixGrid map3 3 0 40 = .error .indexError := by
  refine ⟨fun m cX cY hlen hcx => ?_, rfl⟩
  show npGet m.connectionMatrix (2 * cX + 1 + 0) (2 * cY + 1 + 1) = .error .indexError
  apply npGet_high
  rw [hlen]
  push_cast
  omega

/-- Witness for the amended C9: cell `(3, 0)` on the documented 3×3 map. -/
theorem isConnected_high_bounds_witness :
    isConnected map3 3 0 0 = .error .indexError :=
  isConnected_fillCostMatrix_high_bounds.1 map3 3 0 rfl (by decide)

/- ### C3: `findPath` need not terminate -/

theorem findPath_cmCycle_no_fuel_aux :
    ∀ (f : Nat) (xE yE : Int) (p : Option (List Int)), 1 ≤ xE →
      (findPath cmCycle f 0 0 xE yE p).1 = .error .noFuel := by
  intro f
  induction f with
  | zero => intro xE yE p _; rfl
  | succ f ih =>
    intro xE yE p hx
    have hne : ¬(2 * (0 : Int) + 1 = 2 * xE + 1 ∧ 2 * (0 : Int) + 1 = 2 * yE + 1) := by
      omega
    simp only [findPath,
      show npGet cmCycle (2 * (0 : Int) + 1) (2 * (0 : Int) + 1) = Except.ok 5 from rfl,
      show scanNeighbors cmCycle (2 * (0 : Int) + 1) (2 * (0 : Int) + 1) =
        Except.ok (some ((0 : Int), (0 : Int)), -5) from rfl,
      show ¬((5 : Int) = -1) from by norm_num, hne, if_false]
    exact ih (2 * xE + 1) (2 * yE + 1) _ (by omega)

/-- C3.  Claimed: `extractPath` (`findPath`) is iterative and always
terminates within the grid diameter, for every cost field including
inconsistent ones.  The source is recursive and, on the cost field
`cmCycle` with start `(0,0)` and end `(1,1)`, re-enters the same start
position forever: for every fuel bound the run exhausts its fuel. -/
theorem findPath_cmCycle_never_terminates (fuel : Nat) :
    (findPath cmCycle fuel 0 0 1 1 none).1 = .error .noFuel :=
  findPath_cmCycle_no_fuel_aux fuel 1 1 none (by norm_num)

/- ### C10: wavefront propagation ignores connectivity between positions -/

/-- A rectangular grid of the given extents (what `-2*np.ones((sxe, sye))`
and the connection matrix of a well-formed map satisfy). -/
def GridDims (g : Grid) (X Y : Nat) : Prop :=
  g.length = X ∧ ∀ row ∈ g, row.length = Y

instance (g : Grid) (X Y : Nat) : Decidable (GridDims g X Y) := by
  unfold GridDims; infer_instance

theorem gridDims_get {g : Grid} {X Y : Nat} (hd : GridDims g X Y) {a b : Int}
    (ha0 : 0 ≤ a) (ha : a < (X : Int)) (hb0 : 0 ≤ b) (hb : b < (Y : Int)) :
    ∃ v, npGet g a b = .ok v := by
  obtain ⟨hlen, hrows⟩ := hd
  have hk : normIdx g.length a = some a.toNat := by rw [hlen]; exact normIdx_pos ha0 ha
  have hklt : a.toNat < g.length := by rw [hlen]; omega
  cases hrow : g[a.toNat]? with
  | none => rw [List.getElem?_eq_none_iff] at hrow; omega
  | some row =>
    have hrl : row.length = Y := hrows row (List.getElem?_mem hrow)
    have hl : normIdx row.length b = some b.toNat := by rw [hrl]; exact normIdx_pos hb0 hb
    have hllt : b.toNat < row.length := by rw [hrl]; omega
    cases hv : row[b.toNat]? with
    | none => rw [List.getElem?_eq_none_iff] at hv; omega
    | some v => exact ⟨v, by simp only [npGet, hk, hrow, hl, hv]⟩

theorem gridDims_set {g : Grid} {X Y : Nat} (hd : GridDims g X Y) {a b : Int}
    (ha0 : 0 ≤ a) (ha : a < (X : Int)) (hb0 : 0 ≤ b) (hb : b < (Y : Int)) (v : Int) :
    ∃ g', npSet g a b v = .ok g' ∧ GridDims g' X Y ∧ npGet g' a b = .ok v ∧
      ∀ a' b' : Int, 0 ≤ a' → a' < (X : Int) → 0 ≤ b' → b' < (Y : Int) →
        (a' ≠ a ∨ b' ≠ b) → npGet g' a' b' = npGet g a' b' := by
  obtain ⟨hlen, hrows⟩ := hd
  have hk : normIdx g.length a = some a.toNat := by rw [hlen]; exact normIdx_pos ha0 ha
  have hklt : a.toNat < g.length := by rw [hlen]; omega
  cases hrow : g[a.toNat]? with
  | none => rw [List.getElem?_eq_none_iff] at hrow; omega
  | some row =>
    have hrl : row.length = Y := hrows row (List.getElem?_mem hrow)
    have hl : normIdx row.length b = some b.toNat := by rw [hrl]; exact normIdx_pos hb0 hb
    have hllt : b.toNat < row.length := by rw [hrl]; omega
    refine ⟨g.set a.toNat (row.set b.toNat v), npSet_ok hk hrow hl, ⟨?_, ?_⟩, ?_, ?_⟩
    · rw [List.length_set, hlen]
    · intro r hr
      rcases List.mem_or_eq_of_mem_set hr with h | h
      · exact hrows r h
      · rw [h, List.length_set, hrl]
    · have h1 : normIdx (g.set a.toNat (row.set b.toNat v)).length a = some a.toNat := by
        rw [List.length_set]; exact hk
      have h2 : (g.set a.toNat (row.set b.toNat v))[a.toNat]? = some (row.set b.toNat v) :=
        List.getElem?_set_eq_of_lt _ hklt
      have h3 : normIdx (row.set b.toNat v).length b = some b.toNat := by
        rw [List.length_set]; exact hl
      have h4 : (row.set b.toNat v)[b.toNat]? = some v := List.getElem?_set_eq_of_lt _ hllt
      simp only [npGet, h1, h2, h3, h4]
    · intro a' b' ha0' ha' hb0' hb' hne
      have hk' : normIdx (g.set a.toNat (row.set b.toNat v)).length a' = some a'.toNat := by
        rw [List.length_set, hlen]; exact normIdx_pos ha0' ha'
      have hk'' : normIdx g.length a' = some a'.toNat := by
        rw [hlen]; exact normIdx_pos ha0' ha'
      by_cases hc : a' = a
      · subst hc
        have hbne : b'.toNat ≠ b.toNat := by
          rcases hne with h | h
          · exact absurd rfl h
          · omega
        have h2 : (g.set a'.toNat (row.set b.toNat v))[a'.toNat]? = some (row.set b.toNat v) :=
          List.getElem?_set_eq_of_lt _ hklt
        have h3 : normIdx (row.set b.toNat v).length b' = some b'.toNat := by
          rw [List.length_set, hrl]; exact normIdx_pos hb0' hb'
        have h3' : normIdx row.length b' = some b'.toNat := by
          rw [hrl]; exact normIdx_pos hb0' hb'
        have h4 : (row.set b.toNat v)[b'.toNat]? = row[b'.toNat]? :=
          List.getElem?_set_ne (by omega)
        simp only [npGet, hk', h2, h3, h4, hk'', hrow, h3']
      · have h2 : (g.set a.toNat (row.set b.toNat v))[a'.toNat]? = g[a'.toNat]? :=
          List.getElem?_set_ne (by omega)
        simp only [npGet, hk', h2, hk'']

theorem neighborOff_ne_zero : ∀ i : Fin 8, neighborOff i ≠ (0, 0) := by decide

theorem neighborOff_inj {i j : Fin 8} (h : neighborOff i = neighborOff j) : i = j := by
  revert h
  revert i j
  decide

/-- Two different neighbour indices name two different grid positions. -/
theorem neighbor_pos_ne (o : Int × Int) (i j : Fin 8) (hij : i ≠ j) :
    (o.1 + (neighborOff j).1, o.2 + (neighborOff j).2) ≠
      (o.1 + (neighborOff i).1, o.2 + (neighborOff i).2) := by
  intro h
  rw [Prod.mk.injEq] at h
  have h1 : (neighborOff j).1 = (neighborOff i).1 := by omega
  have h2 : (neighborOff j).2 = (neighborOff i).2 := by omega
  exact hij (neighborOff_inj (Prod.ext h1 h2)).symm

theorem propagateStep_preserve (m : Map2D) (o : Int × Int) (x y : Int) (j : Fin 8)
    (ho1 : 0 ≤ o.1) (ho2 : o.1 < 2 * (m.sizeX : Int) + 1)
    (ho3 : 0 ≤ o.2) (ho4 : o.2 < 2 * (m.sizeY : Int) + 1)
    (hx1 : 0 ≤ x) (hx2 : x < 2 * (m.sizeX : Int) + 1)
    (hy1 : 0 ≤ y) (hy2 : y < 2 * (m.sizeY : Int) + 1)
    (hne : (o.1 + (neighborOff j).1, o.2 + (neighborOff j).2) ≠ (x, y))
    {g : Grid} {n : Nat} {c w : Int}
    (hd : GridDims g (2 * m.sizeX + 1) (2 * m.sizeY + 1))
    (hoc : npGet g o.1 o.2 = .ok c) (hw : npGet g x y = .ok w) :
    ∃ g' n', propagateStep m o (g, n) j = .ok (g', n') ∧
      GridDims g' (2 * m.sizeX + 1) (2 * m.sizeY + 1) ∧
      npGet g' o.1 o.2 = .ok c ∧ npGet g' x y = .ok w := by
  by_cases hb : 0 ≤ o.1 + (neighborOff j).1 ∧
      o.1 + (neighborOff j).1 < 2 * (m.sizeX : Int) + 1 ∧
      0 ≤ o.2 + (neighborOff j).2 ∧ o.2 + (neighborOff j).2 < 2 * (m.sizeY : Int) + 1
  · obtain ⟨hb1, hb2, hb3, hb4⟩ := hb
    obtain ⟨v, hv⟩ := gridDims_get hd hb1 (by push_cast; omega) hb3 (by push_cast; omega)
    have hneo : o.1 ≠ o.1 + (neighborOff j).1 ∨ o.2 ≠ o.2 + (neighborOff j).2 := by
      by_contra hcon
      push_neg at hcon
      exact neighborOff_ne_zero j (Prod.ext (by omega) (by omega))
    have hnex : x ≠ o.1 + (neighborOff j).1 ∨ y ≠ o.2 + (neighborOff j).2 := by
      by_contra hcon
      push_neg at hcon
      exact hne (Prod.ext hcon.1.symm hcon.2.symm)
    have hbfull : 0 ≤ o.1 + (neighborOff j).1 ∧
        o.1 + (neighborOff j).1 < 2 * (m.sizeX : Int) + 1 ∧
        0 ≤ o.2 + (neighborOff j).2 ∧ o.2 + (neighborOff j).2 < 2 * (m.sizeY : Int) + 1 :=
      ⟨hb1, hb2, hb3, hb4⟩
    by_cases hv2 : v = -2
    · rw [hv2] at hv
      obtain ⟨g', hset, hd', hget, hpres⟩ :=
        gridDims_set hd hb1 (by push_cast; omega) hb3 (by push_cast; omega) (c + 1)
      refine ⟨g', n + 1, ?_, hd', ?_, ?_⟩
      · simp only [propagateStep, if_pos hbfull, hv, Bind.bind, Except.bind, hoc, hset,
          reduceIte]
        rfl
      · exact (hpres o.1 o.2 ho1 (by push_cast; omega) ho3 (by push_cast; omega) hneo).trans hoc
      · exact (hpres x y (by omega) (by push_cast; omega) (by omega) (by push_cast; omega)
          hnex).trans hw
    · by_cases hv3 : v > c + 1 ∧ v ≠ -1
      · obtain ⟨g', hset, hd', hget, hpres⟩ :=
          gridDims_set hd hb1 (by push_cast; omega) hb3 (by push_cast; omega) (c + 1)
        refine ⟨g', n + 1, ?_, hd', ?_, ?_⟩
        · simp only [propagateStep, if_pos hbfull, hv, Bind.bind, Except.bind, hoc, hset,
            if_neg hv2, if_pos hv3]
          rfl
        · exact (hpres o.1 o.2 ho1 (by push_cast; omega) ho3 (by push_cast; omega)
            hneo).trans hoc
        · exact (hpres x y (by omega) (by push_cast; omega) (by omega) (by push_cast; omega)
            hnex).trans hw
      · refine ⟨g, n, ?_, hd, hoc, hw⟩
        simp only [propagateStep, if_pos hbfull, hv, Bind.bind, Except.bind, hoc,
          if_neg hv2, if_neg hv3]
        rfl
  · exact ⟨g, n, by simp only [propagateStep, if_neg hb]; rfl, hd, hoc, hw⟩

theorem propagateStep_update (m : Map2D) (o : Int × Int) (x y : Int) (i : Fin 8)
    (hxy : x = o.1 + (neighborOff i).1) (hyy : y = o.2 + (neighborOff i).2)
    (ho1 : 0 ≤ o.1) (ho2 : o.1 < 2 * (m.sizeX : Int) + 1)
    (ho3 : 0 ≤ o.2) (ho4 : o.2 < 2 * (m.sizeY : Int) + 1)
    (hx1 : 0 ≤ x) (hx2 : x < 2 * (m.sizeX : Int) + 1)
    (hy1 : 0 ≤ y) (hy2 : y < 2 * (m.sizeY : Int) + 1)
    {g : Grid} {n : Nat} {c : Int}
    (hd : GridDims g (2 * m.sizeX + 1) (2 * m.sizeY + 1))
    (hoc : npGet g o.1 o.2 = .ok c) (hw : npGet g x y = .ok (-2)) :
    ∃ g', propagateStep m o (g, n) i = .ok (g', n + 1) ∧
      GridDims g' (2 * m.sizeX + 1) (2 * m.sizeY + 1) ∧
      npGet g' o.1 o.2 = .ok c ∧ npGet g' x y = .ok (c + 1) := by
  subst hxy hyy
  have hneo : o.1 ≠ o.1 + (neighborOff i).1 ∨ o.2 ≠ o.2 + (neighborOff i).2 := by
    by_contra hcon
    push_neg at hcon
    exact neighborOff_ne_zero i (Prod.ext (by omega) (by omega))
  have hbfull : 0 ≤ o.1 + (neighborOff i).1 ∧
      o.1 + (neighborOff i).1 < 2 * (m.sizeX : Int) + 1 ∧
      0 ≤ o.2 + (neighborOff i).2 ∧ o.2 + (neighborOff i).2 < 2 * (m.sizeY : Int) + 1 :=
    ⟨hx1, hx2, hy1, hy2⟩
  obtain ⟨g', hset, hd', hget, hpres⟩ :=
    gridDims_set hd hx1 (by push_cast; omega) hy1 (by push_cast; omega) (c + 1)
  refine ⟨g', ?_, hd', ?_, hget⟩
  · simp only [propagateStep, if_pos hbfull, hw, Bind.bind, Except.bind, hoc, hset,
      reduceIte]
    rfl
  · exact (hpres o.1 o.2 ho1 (by push_cast; omega) ho3 (by push_cast; omega) hneo).trans hoc

theorem foldl_propagate_preserve (m : Map2D) (o : Int × Int) (x y : Int)
    (ho1 : 0 ≤ o.1) (ho2 : o.1 < 2 * (m.sizeX : Int) + 1)
    (ho3 : 0 ≤ o.2) (ho4 : o.2 < 2 * (m.sizeY : Int) + 1)
    (hx1 : 0 ≤ x) (hx2 : x < 2 * (m.sizeX : Int) + 1)
    (hy1 : 0 ≤ y) (hy2 : y < 2 * (m.sizeY : Int) + 1) :
    ∀ (l : List (Fin 8)),
      (∀ j ∈ l, (o.1 + (neighborOff j).1, o.2 + (neighborOff j).2) ≠ (x, y)) →
      ∀ (g : Grid) (n : Nat) (c w : Int),
        GridDims g (2 * m.sizeX + 1) (2 * m.sizeY + 1) →
        npGet g o.1 o.2 = .ok c → npGet g x y = .ok w →
        ∃ g' n', List.foldlM (propagateStep m o) (g, n) l = .ok (g', n') ∧
          GridDims g' (2 * m.sizeX + 1) (2 * m.sizeY + 1) ∧
          npGet g' o.1 o.2 = .ok c ∧ npGet g' x y = .ok w := by
  intro l
  induction l with
  | nil => exact fun _ g n c w hd hoc hw => ⟨g, n, rfl, hd, hoc, hw⟩
  | cons j rest ih =>
    intro hm g n c w hd hoc hw
    obtain ⟨g1, n1, hstep, hd1, hoc1, hw1⟩ :=
      propagateStep_preserve m o x y j ho1 ho2 ho3 ho4 hx1 hx2 hy1 hy2
        (hm j (List.mem_cons_self j rest)) hd hoc hw
    obtain ⟨g2, n2, hfold, hd2, hoc2, hw2⟩ :=
      ih (fun j' hj' => hm j' (List.mem_cons_of_mem j hj')) g1 n1 c w hd1 hoc1 hw1
    refine ⟨g2, n2, ?_, hd2, hoc2, hw2⟩
    rw [List.foldlM_cons, hstep]
    simpa only [Bind.bind, Except.bind] using hfold

theorem propagateWavefront_assigns (m : Map2D) (g : Grid) (o : Int × Int)
    (i : Fin 8) (c : Int) (x y : Int) (l1 l2 : List (Fin 8))
    (hsplit : List.finRange 8 = l1 ++ i :: l2)
    (h1 : ∀ j ∈ l1, j ≠ i) (h2 : ∀ j ∈ l2, j ≠ i)
    (hxy : x = o.1 + (neighborOff i).1) (hyy : y = o.2 + (neighborOff i).2)
    (hd : GridDims g (2 * m.sizeX + 1) (2 * m.sizeY + 1))
    (ho1 : 0 ≤ o.1) (ho2 : o.1 < 2 * (m.sizeX : Int) + 1)
    (ho3 : 0 ≤ o.2) (ho4 : o.2 < 2 * (m.sizeY : Int) + 1)
    (hx1 : 0 ≤ x) (hx2 : x < 2 * (m.sizeX : Int) + 1)
    (hy1 : 0 ≤ y) (hy2 : y < 2 * (m.sizeY : Int) + 1)
    (hoc : npGet g o.1 o.2 = .ok c) (hunv : npGet g x y = .ok (-2)) :
    ∃ g' n, propagateWavefront m g o = .ok (g', n) ∧ npGet g' x y = .ok (c + 1) := by
  unfold propagateWavefront
  rw [hsplit, List.foldlM_append]
  have hmm1 : ∀ j ∈ l1, (o.1 + (neighborOff j).1, o.2 + (neighborOff j).2) ≠ (x, y) := by
    intro j hj
    rw [hxy, hyy]
    exact neighbor_pos_ne o i j (h1 j hj).symm
  obtain ⟨g1, n1, hf1, hd1, hoc1, hw1⟩ :=
    foldl_propagate_preserve m o x y ho1 ho2 ho3 ho4 hx1 hx2 hy1 hy2 l1 hmm1
      g 0 c (-2) hd hoc hunv
  rw [hf1]
  simp only [Bind.bind, Except.bind]
  rw [List.foldlM_cons]
  obtain ⟨g2, hstep, hd2, hoc2, hnew⟩ :=
    propagateStep_update m o x y i hxy hyy ho1 ho2 ho3 ho4 hx1 hx2 hy1 hy2 hd1 hoc1 hw1
  rw [hstep]
  simp only [Bind.bind, Except.bind]
  have hmm2 : ∀ j ∈ l2, (o.1 + (neighborOff j).1, o.2 + (neighborOff j).2) ≠ (x, y) := by
    intro j hj
    rw [hxy, hyy]
    exact neighbor_pos_ne o i j (h2 j hj).symm
  obtain ⟨g3, n3, hf3, hd3, hoc3, hw3⟩ :=
    foldl_propagate_preserve m o x y ho1 ho2 ho3 ho4 hx1 hx2 hy1 hy2 l2 hmm2
      g2 (n1 + 1) c (c + 1) hd2 hoc2 hnew
  exact ⟨g3, n3, hf3, hw3⟩

/-- C10.  `propagateWavefront` checks only the bound extents and the
neighbour's own entry: for every origin in the wavefront with cost `c`,
every in-bounds diagonal grid-neighbour (odd index `i`) whose entry is
`Unvisited` (`-2`) gets assigned the finite cost `c + 1`, even when both
adjoining orthogonal positions `(x, o.2)` and `(o.1, y)` are `Blocked`
(`-1`) — so cost propagates diagonally through a closed corner that the
extractor's diagonal rule would forbid. -/
theorem propagateWavefront_diag_through_closed_corner
    (m : Map2D) (g : Grid) (o : Int × Int) (i : Fin 8) (c : Int) (x y : Int)
    (hdiag : i.val % 2 = 1)
    (hxy : x = o.1 + (neighborOff i).1) (hyy : y = o.2 + (neighborOff i).2)
    (hd : GridDims g (2 * m.sizeX + 1) (2 * m.sizeY + 1))
    (ho1 : 0 ≤ o.1) (ho2 : o.1 < 2 * (m.sizeX : Int) + 1)
    (ho3 : 0 ≤ o.2) (ho4 : o.2 < 2 * (m.sizeY : Int) + 1)
    (hx1 : 0 ≤ x) (hx2 : x < 2 * (m.sizeX : Int) + 1)
    (hy1 : 0 ≤ y) (hy2 : y < 2 * (m.sizeY : Int) + 1)
    (hoc : npGet g o.1 o.2 = .ok c) (hunv : npGet g x y = .ok (-2))
    (horth1 : npGet g x o.2 = .ok (-1)) (horth2 : npGet g o.1 y = .ok (-1)) :
    ∃ g' n, propagateWavefront m g o = .ok (g', n) ∧ npGet g' x y = .ok (c + 1) := by
  fin_cases i
  · exact absurd hdiag (by decide)
  · exact propagateWavefront_assigns m g o 1 c x y [0] [2, 3, 4, 5, 6, 7] rfl
      (by decide) (by decide) hxy hyy hd ho1 ho2 ho3 ho4 hx1 hx2 hy1 hy2 hoc hunv
  · exact absurd hdiag (by decide)
  · exact propagateWavefront_assigns m g o 3 c x y [0, 1, 2] [4, 5, 6, 7] rfl
      (by decide) (by decide) hxy hyy hd ho1 ho2 ho3 ho4 hx1 hx2 hy1 hy2 hoc hunv
  · exact absurd hdiag (by decide)
  · exact propagateWavefront_assigns m g o 5 c x y [0, 1, 2, 3, 4] [6, 7] rfl
      (by decide) (by decide) hxy hyy hd ho1 ho2 ho3 ho4 hx1 hx2 hy1 hy2 hoc hunv
  · exact absurd hdiag (by decide)
  · exact propagateWavefront_assigns m g o 7 c x y [0, 1, 2, 3, 4, 5, 6] [] rfl
      (by decide) (by decide) hxy hyy hd ho1 ho2 ho3 ho4 hx1 hx2 hy1 hy2 hoc hunv

/-- A 1×1 map (3×3 extended grid) used to witness the diagonal
propagation through a fully closed corner. -/
def mWit : Map2D :=
  { sizeX := 1, sizeY := 1, sizeCell := 400
    connectionMatrix := [[0, 0, 0], [0, 1, 0], [0, 0, 0]]
    costMatrix := none, currentPath := none
    sizeXExtended := 0, sizeYExtended := 0 }

/-- A 3×3 wavefront grid: origin `(1,1)` has cost `0`, the diagonal
neighbour `(2,2)` is `Unvisited` and both adjoining orthogonal positions
`(2,1)` and `(1,2)` are `Blocked`. -/
def gWit : Grid := [[0, 0, 0], [0, 0, -1], [0, -1, -2]]

/-- Witness for C10: on `gWit` the wavefront still assigns cost `1` to
the diagonal `(2,2)` behind the closed corner. -/
theorem propagateWavefront_diag_through_closed_corner_witness :
    ∃ g' n, propagateWavefront mWit gWit (1, 1) = .ok (g', n) ∧ npGet g' 2 2 = .ok 1 :=
  propagateWavefront_diag_through_closed_corner mWit gWit (1, 1) 1 0 2 2
    (by decide) (by decide) (by decide) (by decide)
    (by decide) (by decide) (by decide) (by decide)
    (by decide) (by decide) (by decide) (by decide)
    rfl rfl rfl rfl
